import Mathlib

/-!
Verification development for the Looking Glass Quilt Video Converter
(repository QuiltConverter, files `quilt-converter-gui.py` and
`quilt_converter_gui.py`).

The Python sources are shallowly embedded:
* real-valued (Python float) quantities are modelled over `ℚ`; the two
  transcendental per-job constants `pitchCalc = pitch * screenInches *
  cos(atan(1/slope))` and anything downstream of `cos`/`atan` are
  abstracted as an arbitrary rational parameter, since every claim about
  the mapper quantifies over all calibrations;
* Python `int(x)` (truncation toward zero) is `truncQ`;
* Python float `%` (floor-sign modulus) on a positive modulus is `qmodF`,
  and `x % 1.0` is `Int.fract`;
* fallible operations return `Option`; a raised-and-uncaught exception is
  an explicit error constructor or `none`;
* JSON values read by `json.load` are modelled by `JVal` (`num` for any
  number-coercible leaf, `obj` for a dict, `null` for any other
  non-coercible value), and a Python dict by a first-match association
  list.
-/

/-- Python `int(x)` on a float: truncation toward zero. -/
def truncQ (x : ℚ) : ℤ := if 0 ≤ x then ⌊x⌋ else ⌈x⌉

/-- `max lo (min hi v)`, the clamping idiom `max(lo, min(hi, v))` of the code. -/
def clampI (lo hi v : ℤ) : ℤ := max lo (min hi v)

/-- Python float `x % y` for the moduli used by the code (floor-sign modulus). -/
def qmodF (x y : ℚ) : ℚ := x - y * ⌊x / y⌋

/-- Inputs of one `convert_frame` call of `quilt-converter-gui.py`
(lines 360-415): source frame size, display size from the calibration,
the per-job float constants `pitchCalc`, `tilt`, `center`, and the quilt
grid parsed from the filename. -/
structure MapperInput where
  width : ℕ
  height : ℕ
  screenW : ℕ
  screenH : ℕ
  pitchCalc : ℚ
  tilt : ℚ
  center : ℚ
  cols : ℕ
  rows : ℕ
deriving DecidableEq

/-- `coord_x = x / display_width` (line 385). -/
def coordXQ (inp : MapperInput) (x : ℕ) : ℚ := (x : ℚ) / (inp.screenW : ℚ)

/-- `coord_y = y / display_height` (line 386). -/
def coordYQ (inp : MapperInput) (y : ℕ) : ℚ := (y : ℚ) / (inp.screenH : ℚ)

/-- Lines 389-390: `a = (coord_x + coord_y * tilt) * pitchCalc - center;
a = (a + 0.5) % 1.0`.  Python `% 1.0` is the fractional part `Int.fract`. -/
def codeA (inp : MapperInput) (x y : ℕ) : ℚ :=
  Int.fract ((coordXQ inp x + coordYQ inp y * inp.tilt) * inp.pitchCalc - inp.center + 1/2)

/-- Line 393: `view_index = a * quilt_cols * quilt_rows`. -/
def codeViewIndex (inp : MapperInput) (x y : ℕ) : ℚ :=
  codeA inp x y * (inp.cols : ℚ) * (inp.rows : ℚ)

/-- Lines 394, 399: `tile_y = int(view_index // quilt_cols)` then
`tile_y = max(0, min(quilt_rows - 1, tile_y))`.  Float floor division is
`⌊vi / cols⌋` (as a float, hence the cast back to `ℚ` under `truncQ`). -/
def codeTileRow (inp : MapperInput) (x y : ℕ) : ℤ :=
  clampI 0 ((inp.rows : ℤ) - 1)
    (truncQ ((⌊codeViewIndex inp x y / (inp.cols : ℚ)⌋ : ℤ) : ℚ))

/-- Lines 395, 398: `tile_x = int((quilt_cols - 1) - (view_index % quilt_cols))`
then `tile_x = max(0, min(quilt_cols - 1, tile_x))`. -/
def codeTileCol (inp : MapperInput) (x y : ℕ) : ℤ :=
  clampI 0 ((inp.cols : ℤ) - 1)
    (truncQ ((inp.cols : ℚ) - 1 - qmodF (codeViewIndex inp x y) (inp.cols : ℚ)))

/-- Line 402: `tile_width = width // quilt_cols`. -/
def tileWidthN (inp : MapperInput) : ℕ := inp.width / inp.cols

/-- Line 403: `tile_height = height // quilt_rows`. -/
def tileHeightN (inp : MapperInput) : ℕ := inp.height / inp.rows

/-- Lines 405, 409: `source_x = int(tile_x * tile_width + coord_x * tile_width)`
then `source_x = max(0, min(width - 1, source_x))`. -/
def codeSrcX (inp : MapperInput) (x y : ℕ) : ℤ :=
  clampI 0 ((inp.width : ℤ) - 1)
    (truncQ ((codeTileCol inp x y : ℚ) * (tileWidthN inp : ℚ) +
      coordXQ inp x * (tileWidthN inp : ℚ)))

/-- Lines 406, 410: `source_y = int(tile_y * tile_height + coord_y * tile_height)`
then `source_y = max(0, min(height - 1, source_y))`. -/
def codeSrcY (inp : MapperInput) (x y : ℕ) : ℤ :=
  clampI 0 ((inp.height : ℤ) - 1)
    (truncQ ((codeTileRow inp x y : ℚ) * (tileHeightN inp : ℚ) +
      coordYQ inp y * (tileHeightN inp : ℚ)))

/-- The coordinates one destination pixel samples. -/
structure PixelSample where
  tileX : ℤ
  tileY : ℤ
  srcX : ℤ
  srcY : ℤ
deriving DecidableEq

/-- The full per-pixel body of `convert_frame` (lines 384-413). -/
def convert_frame_pixel (inp : MapperInput) (x y : ℕ) : PixelSample :=
  { tileX := codeTileCol inp x y
    tileY := codeTileRow inp x y
    srcX := codeSrcX inp x y
    srcY := codeSrcY inp x y }

/-- The spec formula of §4.3 for the tile row:
`tileRow = clamp(floor(viewIndex / columns), 0, rows-1)`. -/
def specTileRow (vi : ℚ) (cols rows : ℕ) : ℤ :=
  clampI 0 ((rows : ℤ) - 1) ⌊vi / (cols : ℚ)⌋

/-- The spec formula of §4.3 for the tile column:
`tileCol = clamp((columns - 1) - floor(viewIndex mod columns), 0, columns-1)`.
The floor is applied to `viewIndex mod columns` alone, per the spec text. -/
def specTileCol (vi : ℚ) (cols : ℕ) : ℤ :=
  clampI 0 ((cols : ℤ) - 1) ((cols : ℤ) - 1 - ⌊qmodF vi (cols : ℚ)⌋)

/-- Concrete mapper input used to separate the code from the spec formula:
a 1×1 display, `pitchCalc = 1`, `tilt = 0`, `center = 22/45`, 5×9 quilt.
At pixel (0,0) the wrapped view angle is `1/90`, so `viewIndex = 1/2`. -/
def inpC1 : MapperInput :=
  { width := 10, height := 18, screenW := 1, screenH := 1,
    pitchCalc := 1, tilt := 0, center := 22/45, cols := 5, rows := 9 }

/-- ASCII digit test: the `\d` class of the pattern of
`parse_quilt_filename` (`quilt-converter-gui.py` line 258). -/
def isDigitCh (c : Char) : Bool := '0' ≤ c && c ≤ '9'

/-- The `[\d.]` class of the aspect group of the pattern. -/
def isDigitDotCh (c : Char) : Bool := isDigitCh c || c == '.'

/-- One anchored attempt of `re.search(r'_qs(\d+)x(\d+)a([\d.]+)', s)` at
the head of the list: the literal `_qs`, a nonempty maximal digit run, the
literal `x`, a nonempty maximal digit run, the literal `a`, and a nonempty
maximal run of digits and dots.  A greedy `\d+` followed by a literal the
class cannot match is equivalent to maximal munch, so this has exactly the
regex's backtracking semantics. -/
def matchQsAt (l : List Char) : Option (List Char × List Char × List Char) :=
  match l with
  | c1 :: c2 :: c3 :: rest =>
    if c1 = '_' ∧ c2 = 'q' ∧ c3 = 's' then
      if rest.takeWhile isDigitCh = [] then none else
      match rest.dropWhile isDigitCh with
      | cx :: rest2 =>
        if cx = 'x' then
          if rest2.takeWhile isDigitCh = [] then none else
          match rest2.dropWhile isDigitCh with
          | ca :: rest3 =>
            if ca = 'a' then
              if rest3.takeWhile isDigitDotCh = [] then none
              else some (rest.takeWhile isDigitCh, rest2.takeWhile isDigitCh,
                rest3.takeWhile isDigitDotCh)
            else none
          | [] => none
        else none
      | [] => none
    else none
  | _ => none

/-- `re.search` scans candidate start positions left to right and returns
the first successful match. -/
def searchQs : List Char → Option (List Char × List Char × List Char)
  | [] => none
  | c :: rest =>
    match matchQsAt (c :: rest) with
    | some r => some r
    | none => searchQs rest

/-- Index of the last `'.'` in the list, if any. -/
def lastDotIdx (l : List Char) : Option ℕ :=
  match l.reverse.findIdx? (· == '.') with
  | some j => some (l.length - 1 - j)
  | none => none

/-- `Path(filename).stem` on a plain file name: pathlib removes the last
suffix exactly when the last dot is neither the first character nor the
last one. -/
def stemChars (l : List Char) : List Char :=
  match lastDotIdx l with
  | some i => if 0 < i ∧ i < l.length - 1 then l.take i else l
  | none => l

/-- `int()` of a decimal digit string. -/
def digitsVal (l : List Char) : ℕ := l.foldl (fun a c => a * 10 + (c.toNat - 48)) 0

/-- Python `float()` on a string made of digits and dots (the only strings
the aspect group can produce): it succeeds exactly when the string has at
most one dot and at least one digit, returning the exact decimal value
(float literals are modelled as exact rationals), and raises `ValueError`
(`none`) otherwise, e.g. on `"1.2.3"` or `"."`. -/
def pyFloatChars (l : List Char) : Option ℚ :=
  if 2 ≤ l.count '.' then none
  else if l.all (· == '.') then none
  else
    match l.dropWhile (· != '.') with
    | [] => some (digitsVal l)
    | _ :: frac =>
      some (mkRat (digitsVal (l.takeWhile (· != '.')) * 10 ^ frac.length +
        digitsVal frac) (10 ^ frac.length))

/-- Result of one `parse_quilt_filename` call: either a `(cols, rows,
aspect)` triple with a flag recording whether the defaults-plus-warning
branch was taken, or a raised `ValueError`. -/
inductive ParseResult where
  | ok (cols rows : ℕ) (aspect : ℚ) (warned : Bool)
  | valueError
deriving DecidableEq

/-- `parse_quilt_filename` of `quilt-converter-gui.py` (lines 252-269): on
a match of `_qs(\d+)x(\d+)a([\d.]+)` in the stem, return
`(int(g1), int(g2), float(g3))`, propagating the `ValueError` that
`float` raises on a malformed aspect group; on no match, log a warning and
return the defaults `(5, 9, 1.87)` (`mkRat 187 100` is `1.87`). -/
def parse_quilt_filename (filename : String) : ParseResult :=
  match searchQs (stemChars filename.data) with
  | some (d1, d2, d3) =>
    match pyFloatChars d3 with
    | some a => ParseResult.ok (digitsVal d1) (digitsVal d2) a false
    | none => ParseResult.valueError
  | none => ParseResult.ok 5 9 (mkRat 187 100) true

/-- A nonempty all-digit chunk: one `(\d+)` group. -/
def DigitStr (l : List Char) : Prop := l ≠ [] ∧ ∀ c ∈ l, isDigitCh c = true

/-- A nonempty digits-and-dots chunk: the `([\d.]+)` group. -/
def DigitDotStr (l : List Char) : Prop := l ≠ [] ∧ ∀ c ∈ l, isDigitDotCh c = true

/-- The pattern the code actually searches for:
`_qs<digits>x<digits>a<digits-and-dots>` occurs somewhere in the list. -/
def QsSplitU (l : List Char) : Prop :=
  ∃ pre d1 d2 d3 post, DigitStr d1 ∧ DigitStr d2 ∧ DigitDotStr d3 ∧
    l = pre ++ '_' :: 'q' :: 's' :: (d1 ++ 'x' :: (d2 ++ 'a' :: (d3 ++ post)))

/-- The claim's pattern, written from the spec's words:
`qs<digits>x<digits>a<decimal>` anywhere, with no leading underscore and a
well-formed decimal aspect. -/
def QsSplitSpec (l : List Char) : Prop :=
  ∃ pre d1 d2 d3 post, DigitStr d1 ∧ DigitStr d2 ∧ DigitDotStr d3 ∧
    (pyFloatChars d3).isSome = true ∧
    l = pre ++ 'q' :: 's' :: (d1 ++ 'x' :: (d2 ++ 'a' :: (d3 ++ post)))

/-- A parsed JSON value as the calibration loader sees it: `num` for any
value the numeric coercions accept (JSON numbers), `obj` for a dict,
`null` for any other, non-coercible value (list, string, None, …). -/
inductive JVal where
  | num (q : ℚ)
  | obj (fields : List (String × JVal))
  | null

/-- One calibration record: a Python dict as an association list (first
match wins; real dicts have unique keys). -/
abbrev CalibRecord := List (String × JVal)

/-- Python `calib[key]` dict lookup; a `KeyError` is `none`. -/
def lookupJ : CalibRecord → String → Option JVal
  | [], _ => none
  | (k, v) :: rest, key => if k = key then some v else lookupJ rest key

/-- The inner helper of `load_calibration` (lines 278-279):
`calib[key]['value'] if isinstance(calib[key], dict) else calib[key]`. -/
def get_value (calib : CalibRecord) (key : String) : Option JVal :=
  match lookupJ calib key with
  | none => none
  | some (JVal.obj fields) => lookupJ fields "value"
  | some v => some v

/-- `float(get_value(key))` / `int(get_value(key))`: succeeds exactly on
number values; coercing a dict, list or None raises. -/
def numValue (calib : CalibRecord) (key : String) : Option ℚ :=
  match get_value calib key with
  | some (JVal.num q) => some q
  | _ => none

/-- The calibration access of `apply_looking_glass_transform` in
`quilt_converter_gui.py` (lines 417-429):
`calibration_data.get(key, {}).get('value', default)`.  A missing key (or
a dict without `'value'`) yields the built-in default; a dict with a
numeric `'value'` yields that number; a BARE value (float, list, None, …)
is not a dict, so the second `.get` raises `AttributeError` (`none`),
which nothing in the processor catches; a dict whose `'value'` entry is
itself non-numeric poisons the float arithmetic downstream (`none`). -/
def get_calib_value (calib : CalibRecord) (key : String) (dflt : ℚ) : Option ℚ :=
  match lookupJ calib key with
  | none => some dflt
  | some (JVal.obj fields) =>
    match lookupJ fields "value" with
    | some (JVal.num q) => some q
    | some _ => none
    | none => some dflt
  | some _ => none

/-- The flat numeric profile `load_calibration` builds (lines 281-289);
`screenW`/`screenH` go through `int()`. -/
structure CalibrationProfile where
  screenW : ℤ
  screenH : ℤ
  pitch : ℚ
  slope : ℚ
  center : ℚ
  dpi : ℚ
  fringe : ℚ
deriving DecidableEq

/-- `load_calibration` of `quilt-converter-gui.py` (lines 271-296): the
profile dict is built from seven keys — `fringe` included — in source
order; any `KeyError`/`TypeError`/`ValueError` is caught by the handler
at line 294, which logs and returns `None`. -/
def load_calibration (calib : CalibRecord) : Option CalibrationProfile :=
  (numValue calib "screenW").bind fun sw =>
  (numValue calib "screenH").bind fun sh =>
  (numValue calib "pitch").bind fun p =>
  (numValue calib "slope").bind fun sl =>
  (numValue calib "center").bind fun c =>
  (numValue calib "DPI").bind fun d =>
  (numValue calib "fringe").map fun fr =>
  { screenW := truncQ sw, screenH := truncQ sh, pitch := p,
    slope := sl, center := c, dpi := d, fringe := fr }

/-- The seven keys the loader reads, in source order.  The spec lists the
first six as required and calls `fringe` optional. -/
def loaderKeys : List String :=
  ["screenW", "screenH", "pitch", "slope", "center", "DPI", "fringe"]

/-- A record carrying the six spec-required keys as bare numbers and no
`fringe` key. -/
def calibSixKeys : CalibRecord :=
  [("screenW", JVal.num (mkRat 1536 1)), ("screenH", JVal.num (mkRat 2048 1)),
   ("pitch", JVal.num (mkRat 4975 100)), ("slope", JVal.num (mkRat (-55) 10)),
   ("center", JVal.num (mkRat 1 10)), ("DPI", JVal.num (mkRat 324 1))]

/-- A full record with the bare-number shape `pitch: 49.8`. -/
def calibBarePitch : CalibRecord :=
  [("screenW", JVal.num (mkRat 1536 1)), ("screenH", JVal.num (mkRat 2048 1)),
   ("pitch", JVal.num (mkRat 498 10)), ("slope", JVal.num (mkRat (-55) 10)),
   ("center", JVal.num (mkRat 1 10)), ("DPI", JVal.num (mkRat 324 1)),
   ("fringe", JVal.num (mkRat 0 1))]

/-- The same record with the wrapped shape `pitch: {value: 49.8}`. -/
def calibWrappedPitch : CalibRecord :=
  [("screenW", JVal.num (mkRat 1536 1)), ("screenH", JVal.num (mkRat 2048 1)),
   ("pitch", JVal.obj [("value", JVal.num (mkRat 498 10))]),
   ("slope", JVal.num (mkRat (-55) 10)),
   ("center", JVal.num (mkRat 1 10)), ("DPI", JVal.num (mkRat 324 1)),
   ("fringe", JVal.num (mkRat 0 1))]

/-- One row of the `get_codec_settings` table (lines 298-358); the
`fourcc` field is the same `mp4v` constant in every row and the
`description` is display-only, so both are omitted. -/
structure CodecSettings where
  extension : String
  ffmpeg_codec : String
  pixel_format : String
deriving DecidableEq

/-- `get_codec_settings` (lines 298-358): the static codec table keyed by
the selected codec name, with an H.264 default row. -/
def get_codec_settings (codec : String) : CodecSettings :=
  if codec = "H.264" then ⟨".mp4", "libx264", "yuv420p"⟩
  else if codec = "H.265 (HEVC)" then ⟨".mp4", "libx265", "yuv420p"⟩
  else if codec = "ProRes 422" then ⟨".mov", "prores_ks", "yuv422p10le"⟩
  else if codec = "H.264 YUV 4:4:4" then ⟨".mp4", "libx264", "yuv444p"⟩
  else if codec = "H.265 YUV 4:4:4" then ⟨".mp4", "libx265", "yuv444p"⟩
  else if codec = "ProRes 4444" then ⟨".mov", "prores_ks", "yuva444p10le"⟩
  else ⟨".mp4", "libx264", "yuv420p"⟩

/-- Environment of one `convert_video` run (lines 478-597): the outcomes
of the external collaborators the worker thread interacts with. -/
structure ConvertEnv where
  calibOk : Bool
  capOpens : Bool
  frameCount : ℕ
  framesReadable : ℕ
  codec : String
  cvWriterOpens : Bool
  encodeOk : Bool

/-- Observable trace of one `convert_video` run: the progress percentages
put on the queue, the final `("done", flag)`, and the scratch-directory
and backend bookkeeping. -/
structure ConvertTrace where
  progressEvents : List ℚ
  doneSuccess : Bool
  scratchCreated : Bool
  scratchRemoved : Bool
  cvWriterTried : Bool
  usedFfmpeg : Bool

/-- `progress = (frame_num / frame_count) * 100` (line 563): Python
division raises `ZeroDivisionError` when `frame_count` is 0. -/
def progress_value (frameNum frameCount : ℕ) : Option ℚ :=
  if frameCount = 0 then none
  else some (((frameNum : ℚ) / (frameCount : ℚ)) * 100)

/-- The read/convert/write loop (lines 544-567), emitting one progress
event per frame; `none` models the uncaught `ZeroDivisionError` (which
can only hit the very first frame, before any event is emitted). -/
def frameLoop (frameCount : ℕ) : ℕ → ℕ → Option (List ℚ)
  | 0, _ => some []
  | n + 1, frameNum =>
    match progress_value (frameNum + 1) frameCount with
    | none => none
    | some p =>
      match frameLoop frameCount n (frameNum + 1) with
      | none => none
      | some es => some (p :: es)

/-- The 4:4:4 / 10-bit pixel formats forced onto FFmpeg (line 516). -/
def forceFfmpegFormats : List String := ["yuv444p", "yuva444p10le", "yuv422p10le"]

/-- `convert_video` (lines 478-597).  Calibration-load or capture-open
failure exits with `("done", False)`; the staged (FFmpeg) backend is
forced for the formats of line 516 — the OpenCV writer is then never
constructed — and is otherwise entered only when the direct writer fails
to open; the scratch directory is created before the loop (line 539) and
removed (line 588) only after a successful encode; any raised error lands
in the outer handler (line 595), which sends `("done", False)` and does
no cleanup. -/
def convert_video (e : ConvertEnv) : ConvertTrace :=
  if e.calibOk = false then
    { progressEvents := [], doneSuccess := false, scratchCreated := false,
      scratchRemoved := false, cvWriterTried := false, usedFfmpeg := false }
  else if e.capOpens = false then
    { progressEvents := [], doneSuccess := false, scratchCreated := false,
      scratchRemoved := false, cvWriterTried := false, usedFfmpeg := false }
  else
    let force : Bool :=
      forceFfmpegFormats.contains (get_codec_settings e.codec).pixel_format
    let useFfmpeg : Bool := force || !e.cvWriterOpens
    let tried : Bool := !force
    match frameLoop e.frameCount e.framesReadable 0 with
    | none =>
      { progressEvents := [], doneSuccess := false, scratchCreated := useFfmpeg,
        scratchRemoved := false, cvWriterTried := tried, usedFfmpeg := useFfmpeg }
    | some events =>
      if useFfmpeg then
        if e.encodeOk then
          { progressEvents := events, doneSuccess := true, scratchCreated := true,
            scratchRemoved := true, cvWriterTried := tried, usedFfmpeg := true }
        else
          { progressEvents := events, doneSuccess := false, scratchCreated := true,
            scratchRemoved := false, cvWriterTried := tried, usedFfmpeg := true }
      else
        { progressEvents := events, doneSuccess := true, scratchCreated := false,
          scratchRemoved := false, cvWriterTried := tried, usedFfmpeg := false }

/-- The full per-job progress sequence seen by the UI: `start_conversion`
resets the bar to 0 (line 221), the loop events follow, and
`conversion_complete` (lines 599-608) sets 100 on success and 0 on
failure. -/
def jobProgressTrace (e : ConvertEnv) : List ℚ :=
  0 :: ((convert_video e).progressEvents ++
    [if (convert_video e).doneSuccess then 100 else 0])

/-- A staged job whose external encode fails. -/
def envEncodeFail : ConvertEnv :=
  { calibOk := true, capOpens := true, frameCount := 1, framesReadable := 1,
    codec := "H.264 YUV 4:4:4", cvWriterOpens := true, encodeOk := false }

/-- A direct-path job that succeeds: two frames, accurate frame count. -/
def envDirectOk : ConvertEnv :=
  { calibOk := true, capOpens := true, frameCount := 2, framesReadable := 2,
    codec := "H.264", cvWriterOpens := true, encodeOk := true }

/-- A job whose container reports zero frames while one frame is
readable. -/
def envZeroCount : ConvertEnv :=
  { calibOk := true, capOpens := true, frameCount := 0, framesReadable := 1,
    codec := "H.264", cvWriterOpens := true, encodeOk := true }

/-- `start_conversion` of `quilt-converter-gui.py` (lines 214-226): after
input validation it unconditionally clears the log, resets the progress
bar and spawns a new worker thread — there is no in-flight guard, so the
count of active conversion threads just grows. -/
def start_conversion (validInputs : Bool) (activeThreads : ℕ) : ℕ :=
  if validInputs then activeThreads + 1 else activeThreads

/-- Converter state of `quilt_converter_gui.py`: the `is_converting` flag
plus the number of live worker threads. -/
structure GuiState where
  isConverting : Bool
  activeThreads : ℕ
deriving DecidableEq

/-- `start_conversion` of `quilt_converter_gui.py` (lines 213-228): the
variant with the guard — a second start while `is_converting` shows a
warning and returns without spawning or queueing anything. -/
def start_conversion_gui (validInputs : Bool) (s : GuiState) : GuiState :=
  if validInputs = false then s
  else if s.isConverting then s
  else { isConverting := true, activeThreads := s.activeThreads + 1 }

theorem truncQ_intCast (n : ℤ) : truncQ (n : ℚ) = n := by
  unfold truncQ
  split <;> simp

theorem truncQ_of_nonneg {x : ℚ} (h : 0 ≤ x) : truncQ x = ⌊x⌋ := if_pos h

theorem truncQ_of_neg {x : ℚ} (h : x < 0) : truncQ x = ⌈x⌉ := by
  unfold truncQ
  rw [if_neg (not_le.mpr h)]

theorem qmodF_nonneg {y : ℚ} (hy : 0 < y) (x : ℚ) : 0 ≤ qmodF x y := by
  unfold qmodF
  have h1 : (⌊x / y⌋ : ℚ) ≤ x / y := Int.floor_le (x / y)
  have h2 : y * (⌊x / y⌋ : ℚ) ≤ y * (x / y) := by
    exact mul_le_mul_of_nonneg_left h1 (le_of_lt hy)
  have h3 : y * (x / y) = x := mul_div_cancel₀ x (ne_of_gt hy)
  linarith

theorem qmodF_lt {y : ℚ} (hy : 0 < y) (x : ℚ) : qmodF x y < y := by
  unfold qmodF
  have h1 : x / y < (⌊x / y⌋ : ℚ) + 1 := Int.lt_floor_add_one (x / y)
  have h2 : y * (x / y) < y * ((⌊x / y⌋ : ℚ) + 1) := by
    exact mul_lt_mul_of_pos_left h1 hy
  have h3 : y * (x / y) = x := mul_div_cancel₀ x (ne_of_gt hy)
  nlinarith

theorem clampI_mem (lo hi v : ℤ) (h : lo ≤ hi) :
    lo ≤ clampI lo hi v ∧ clampI lo hi v ≤ hi := by
  unfold clampI
  exact ⟨le_max_left _ _, max_le h (min_le_left _ _)⟩

/-- The truncation that `convert_frame` applies to the whole difference
`(cols - 1) - m` agrees, after clamping, with `(cols - 1) - ⌈m⌉` for any
`m ∈ [0, cols)`. -/
theorem trunc_sub_eq_ceil (c : ℕ) (hc : 1 ≤ c) (m : ℚ) (h0 : 0 ≤ m) (hm : m < (c : ℚ)) :
    clampI 0 ((c : ℤ) - 1) (truncQ ((c : ℚ) - 1 - m)) =
    clampI 0 ((c : ℤ) - 1) ((c : ℤ) - 1 - ⌈m⌉) := by
  rcases le_or_lt m ((c : ℚ) - 1) with h | h
  · have hnn : (0 : ℚ) ≤ (c : ℚ) - 1 - m := by linarith
    rw [truncQ_of_nonneg hnn]
    have heq : (c : ℚ) - 1 - m = (((c : ℤ) - 1 : ℤ) : ℚ) + (-m) := by
      push_cast
      ring
    rw [heq, Int.floor_int_add, Int.floor_neg]
    unfold clampI
    omega
  · have hneg : (c : ℚ) - 1 - m < 0 := by linarith
    rw [truncQ_of_neg hneg]
    have hceil : ⌈m⌉ = (c : ℤ) := by
      rw [Int.ceil_eq_iff]
      constructor
      · push_cast
        linarith
      · push_cast
        linarith
    have hceil2 : ⌈(c : ℚ) - 1 - m⌉ = 0 := by
      rw [Int.ceil_eq_iff]
      constructor
      · push_cast
        linarith
      · push_cast
        linarith
    rw [hceil2, hceil]
    unfold clampI
    omega

/-- C1 counterexample: with a 5×9 quilt and wrapped `viewIndex = 1/2`, the
code computes `tile_x = int(4 - 0.5) = 3`, while the spec formula
`(columns-1) - floor(viewIndex mod columns) = 4 - 0 = 4` gives 4; the tile
row agrees.  So the claimed tile-column formula does not match the code. -/
theorem view_mapper_tilecol_cex :
    codeViewIndex inpC1 0 0 = 1/2 ∧
    codeTileCol inpC1 0 0 = 3 ∧
    specTileCol (codeViewIndex inpC1 0 0) 5 = 4 ∧
    codeTileRow inpC1 0 0 = specTileRow (codeViewIndex inpC1 0 0) 5 9 := by
  have hvi : codeViewIndex inpC1 0 0 = 1/2 := by
    unfold codeViewIndex codeA coordXQ coordYQ inpC1
    norm_num [Int.fract]
  have hmod : qmodF ((1 : ℚ)/2) ((5 : ℕ) : ℚ) = 1/2 := by
    unfold qmodF
    norm_num
  have hmod2 : qmodF ((1 : ℚ)/2) (5 : ℚ) = 1/2 := by
    unfold qmodF
    norm_num
  refine ⟨hvi, ?_, ?_, ?_⟩
  · unfold codeTileCol
    rw [hvi]
    unfold inpC1
    norm_num [hmod2, truncQ, clampI]
  · unfold specTileCol
    rw [hvi, hmod]
    norm_num [clampI]
  · unfold codeTileRow specTileRow
    rw [hvi]
    unfold inpC1
    norm_num [truncQ, clampI]

/-- C1 (amended): for every geometry with `columns ≥ 1`, `rows ≥ 1`, every
calibration and every destination pixel, the code's tile row equals the
spec formula `clamp(floor(viewIndex / columns), 0, rows-1)`, but the tile
column is `clamp((columns-1) - ceil(viewIndex mod columns), 0, columns-1)`:
the code truncates the whole difference `(columns-1) - (viewIndex mod
columns)`, which replaces the spec's `floor` of the modulus by a `ceil`.
The column reversal `columns-1 - …` itself is preserved. -/
theorem view_mapper_tile_formula (inp : MapperInput) (x y : ℕ)
    (hc : 1 ≤ inp.cols) (hr : 1 ≤ inp.rows) :
    codeTileRow inp x y = specTileRow (codeViewIndex inp x y) inp.cols inp.rows ∧
    codeTileCol inp x y =
      clampI 0 ((inp.cols : ℤ) - 1)
        ((inp.cols : ℤ) - 1 - ⌈qmodF (codeViewIndex inp x y) (inp.cols : ℚ)⌉) := by
  have hcq : (0 : ℚ) < (inp.cols : ℚ) := by
    exact_mod_cast Nat.lt_of_lt_of_le Nat.zero_lt_one hc
  constructor
  · unfold codeTileRow specTileRow
    rw [truncQ_intCast]
  · unfold codeTileCol
    exact trunc_sub_eq_ceil inp.cols hc _
      (qmodF_nonneg hcq _) (qmodF_lt hcq _)

/-- C1 witness: the amended tile formulas at the concrete input. -/
theorem view_mapper_tile_formula_wit :
    codeTileRow inpC1 0 0 = specTileRow (codeViewIndex inpC1 0 0) inpC1.cols inpC1.rows ∧
    codeTileCol inpC1 0 0 =
      clampI 0 ((inpC1.cols : ℤ) - 1)
        ((inpC1.cols : ℤ) - 1 - ⌈qmodF (codeViewIndex inpC1 0 0) (inpC1.cols : ℚ)⌉) :=
  view_mapper_tile_formula inpC1 0 0 (by decide) (by decide)

/-- C2: for every geometry with `columns ≥ 1`, `rows ≥ 1`, every
calibration, every nonempty source frame and every destination pixel, the
sampled source coordinate lies within `[0, width-1] × [0, height-1]`: the
final `max(0, min(dim-1, ·))` clamps guarantee the in-bounds read. -/
theorem view_mapper_src_in_bounds (inp : MapperInput) (x y : ℕ)
    (hc : 1 ≤ inp.cols) (hr : 1 ≤ inp.rows)
    (hw : 1 ≤ inp.width) (hh : 1 ≤ inp.height) :
    0 ≤ (convert_frame_pixel inp x y).srcX ∧
    (convert_frame_pixel inp x y).srcX ≤ (inp.width : ℤ) - 1 ∧
    0 ≤ (convert_frame_pixel inp x y).srcY ∧
    (convert_frame_pixel inp x y).srcY ≤ (inp.height : ℤ) - 1 := by
  have hwz : (0 : ℤ) ≤ (inp.width : ℤ) - 1 := by
    have : (1 : ℤ) ≤ (inp.width : ℤ) := by exact_mod_cast hw
    omega
  have hhz : (0 : ℤ) ≤ (inp.height : ℤ) - 1 := by
    have : (1 : ℤ) ≤ (inp.height : ℤ) := by exact_mod_cast hh
    omega
  have hx := clampI_mem 0 ((inp.width : ℤ) - 1)
    (truncQ ((codeTileCol inp x y : ℚ) * (tileWidthN inp : ℚ) +
      coordXQ inp x * (tileWidthN inp : ℚ))) hwz
  have hy := clampI_mem 0 ((inp.height : ℤ) - 1)
    (truncQ ((codeTileRow inp x y : ℚ) * (tileHeightN inp : ℚ) +
      coordYQ inp y * (tileHeightN inp : ℚ))) hhz
  exact ⟨hx.1, hx.2, hy.1, hy.2⟩

/-- C2 witness: in-bounds sampling at the concrete input. -/
theorem view_mapper_src_in_bounds_wit :
    0 ≤ (convert_frame_pixel inpC1 0 0).srcX ∧
    (convert_frame_pixel inpC1 0 0).srcX ≤ (inpC1.width : ℤ) - 1 ∧
    0 ≤ (convert_frame_pixel inpC1 0 0).srcY ∧
    (convert_frame_pixel inpC1 0 0).srcY ≤ (inpC1.height : ℤ) - 1 :=
  view_mapper_src_in_bounds inpC1 0 0 (by decide) (by decide) (by decide) (by decide)

theorem searchQs_cons (c : Char) (l : List Char) :
    searchQs (c :: l) =
      match matchQsAt (c :: l) with
      | some r => some r
      | none => searchQs l := rfl

theorem takeWhile_append_sat {p : Char → Bool} (d : List Char) (x : Char) (r : List Char)
    (hd : ∀ c ∈ d, p c = true) (hx : p x = false) :
    (d ++ x :: r).takeWhile p = d ∧ (d ++ x :: r).dropWhile p = x :: r := by
  induction d with
  | nil =>
    simp [List.takeWhile_cons, List.dropWhile_cons, hx]
  | cons a d ih =>
    have ha : p a = true := hd a (List.mem_cons_self a d)
    have ih2 := ih (fun c hc => hd c (List.mem_cons_of_mem a hc))
    simp only [List.cons_append, List.takeWhile_cons_of_pos ha,
      List.dropWhile_cons_of_pos ha, ih2.1, ih2.2, and_self]

theorem takeWhile_append_ne_nil {p : Char → Bool} {d : List Char} (post : List Char)
    (hne : d ≠ []) (hall : ∀ c ∈ d, p c = true) :
    (d ++ post).takeWhile p ≠ [] := by
  cases d with
  | nil => exact absurd rfl hne
  | cons a t =>
    have ha : p a = true := hall a (List.mem_cons_self a t)
    simp [List.takeWhile_cons_of_pos ha]

theorem matchQsAt_of_split {d1 d2 d3 : List Char} (post : List Char)
    (h1 : DigitStr d1) (h2 : DigitStr d2) (h3 : DigitDotStr d3) :
    (matchQsAt ('_' :: 'q' :: 's' ::
      (d1 ++ 'x' :: (d2 ++ 'a' :: (d3 ++ post))))).isSome = true := by
  obtain ⟨hne1, hall1⟩ := h1
  obtain ⟨hne2, hall2⟩ := h2
  obtain ⟨hne3, hall3⟩ := h3
  have hx : isDigitCh 'x' = false := rfl
  have ha : isDigitCh 'a' = false := rfl
  have t1 := takeWhile_append_sat d1 'x' (d2 ++ 'a' :: (d3 ++ post)) hall1 hx
  have t2 := takeWhile_append_sat d2 'a' (d3 ++ post) hall2 ha
  have t3 := takeWhile_append_ne_nil post hne3 hall3
  simp only [matchQsAt, t1.1, t1.2, t2.1, t2.2]
  simp [hne1, hne2, t3]

theorem searchQs_complete {l : List Char} (h : QsSplitU l) :
    (searchQs l).isSome = true := by
  obtain ⟨pre, d1, d2, d3, post, h1, h2, h3, rfl⟩ := h
  induction pre with
  | nil =>
    rw [List.nil_append, searchQs_cons]
    cases hm : matchQsAt ('_' :: 'q' :: 's' :: (d1 ++ 'x' :: (d2 ++ 'a' :: (d3 ++ post)))) with
    | some r => simp
    | none =>
      have hs := matchQsAt_of_split post h1 h2 h3
      rw [hm] at hs
      exact absurd hs (by simp)
  | cons c pre ih =>
    rw [List.cons_append, searchQs_cons]
    cases hm : matchQsAt (c :: (pre ++ '_' :: 'q' :: 's' :: (d1 ++ 'x' :: (d2 ++ 'a' :: (d3 ++ post))))) with
    | some r => simp
    | none => simpa using ih

theorem matchQsAt_split {l : List Char} {t : List Char × List Char × List Char}
    (h : matchQsAt l = some t) :
    ∃ d1 d2 d3 post, DigitStr d1 ∧ DigitStr d2 ∧ DigitDotStr d3 ∧
      l = '_' :: 'q' :: 's' :: (d1 ++ 'x' :: (d2 ++ 'a' :: (d3 ++ post))) := by
  unfold matchQsAt at h
  split at h
  · rename_i c1 c2 c3 rest
    by_cases hqs : c1 = '_' ∧ c2 = 'q' ∧ c3 = 's'
    case neg =>
      rw [if_neg hqs] at h
      exact absurd h (by simp)
    rw [if_pos hqs] at h
    obtain ⟨rfl, rfl, rfl⟩ := hqs
    by_cases hd1 : rest.takeWhile isDigitCh = []
    · rw [if_pos hd1] at h
      exact absurd h (by simp)
    rw [if_neg hd1] at h
    split at h
    · rename_i cx rest2 hrest
      by_cases hcx : cx = 'x'
      case neg =>
        rw [if_neg hcx] at h
        exact absurd h (by simp)
      rw [if_pos hcx] at h
      subst hcx
      by_cases hd2 : rest2.takeWhile isDigitCh = []
      · rw [if_pos hd2] at h
        exact absurd h (by simp)
      rw [if_neg hd2] at h
      split at h
      · rename_i ca rest3 hrest2
        by_cases hca : ca = 'a'
        case neg =>
          rw [if_neg hca] at h
          exact absurd h (by simp)
        rw [if_pos hca] at h
        subst hca
        by_cases hd3 : rest3.takeWhile isDigitDotCh = []
        · rw [if_pos hd3] at h
          exact absurd h (by simp)
        rw [if_neg hd3] at h
        refine ⟨rest.takeWhile isDigitCh, rest2.takeWhile isDigitCh,
          rest3.takeWhile isDigitDotCh, rest3.dropWhile isDigitDotCh,
          ⟨hd1, fun c hc => List.mem_takeWhile_imp hc⟩,
          ⟨hd2, fun c hc => List.mem_takeWhile_imp hc⟩,
          ⟨hd3, fun c hc => List.mem_takeWhile_imp hc⟩, ?_⟩
        have e1 : rest.takeWhile isDigitCh ++ rest.dropWhile isDigitCh = rest :=
          List.takeWhile_append_dropWhile isDigitCh rest
        have e2 : rest2.takeWhile isDigitCh ++ rest2.dropWhile isDigitCh = rest2 :=
          List.takeWhile_append_dropWhile isDigitCh rest2
        have e3 : rest3.takeWhile isDigitDotCh ++ rest3.dropWhile isDigitDotCh = rest3 :=
          List.takeWhile_append_dropWhile isDigitDotCh rest3
        rw [e3, ← hrest2, e2, ← hrest, e1]
      · exact absurd h (by simp)
    · exact absurd h (by simp)
  · exact absurd h (by simp)

theorem searchQs_sound : ∀ {l : List Char}, (searchQs l).isSome = true → QsSplitU l := by
  intro l
  induction l with
  | nil =>
    intro h
    simp [searchQs] at h
  | cons c rest ih =>
    intro h
    rw [searchQs_cons] at h
    cases hm : matchQsAt (c :: rest) with
    | some t =>
      obtain ⟨d1, d2, d3, post, h1, h2, h3, heq⟩ := matchQsAt_split hm
      exact ⟨[], d1, d2, d3, post, h1, h2, h3, by simpa using heq⟩
    | none =>
      rw [hm] at h
      simp only at h
      obtain ⟨pre, d1, d2, d3, post, h1, h2, h3, heq⟩ := ih h
      exact ⟨c :: pre, d1, d2, d3, post, h1, h2, h3, by simp [heq]⟩

/-- C4 counterexample: the stem of `qs10x10a2.0.mp4` contains the claimed
pattern `qs<digits>x<digits>a<decimal>`, yet the parser returns the
defaults with a warning instead of the embedded `(10, 10, 2.0)`, because
the code's regex requires a leading underscore (`_qs…`); and on
`clip_qs5x9a1.2.3.mp4` the greedy aspect group matches `1.2.3`, whose
`float()` conversion raises `ValueError`, so the parser does raise. -/
theorem parse_quilt_filename_cex :
    QsSplitSpec (stemChars ("qs10x10a2.0.mp4").data) ∧
    parse_quilt_filename "qs10x10a2.0.mp4" = ParseResult.ok 5 9 (mkRat 187 100) true ∧
    parse_quilt_filename "clip_qs5x9a1.2.3.mp4" = ParseResult.valueError := by
  refine ⟨⟨[], ['1', '0'], ['1', '0'], ['2', '.', '0'], [],
    ⟨by decide, by decide⟩, ⟨by decide, by decide⟩, ⟨by decide, by decide⟩,
    by decide, by decide⟩, by decide, by decide⟩

/-- C4 (amended): the Quilt Filename Parser matches
`_qs<digits>x<digits>a<digits-and-dots>` — a leading underscore is
required, unlike the claimed bare `qs…` pattern.  On a match it returns
the embedded `(cols, rows, aspect)` when the aspect text is a valid
decimal and raises `ValueError` when it is not (so the parser is not
total); on no match it returns the default `(5, 9, 1.87)` with a warning.
The search succeeds exactly on strings containing the underscored
pattern, and the spec's own positive examples parse as stated. -/
theorem parse_quilt_filename_amended :
    (∀ l : List Char, QsSplitU l ↔ (searchQs l).isSome = true) ∧
    (∀ f : String, searchQs (stemChars f.data) = none →
      parse_quilt_filename f = ParseResult.ok 5 9 (mkRat 187 100) true) ∧
    (∀ (f : String) (d1 d2 d3 : List Char),
      searchQs (stemChars f.data) = some (d1, d2, d3) →
      (∀ a : ℚ, pyFloatChars d3 = some a →
        parse_quilt_filename f = ParseResult.ok (digitsVal d1) (digitsVal d2) a false) ∧
      (pyFloatChars d3 = none → parse_quilt_filename f = ParseResult.valueError)) ∧
    parse_quilt_filename "clip_qs5x9a1.87.mp4" = ParseResult.ok 5 9 (mkRat 187 100) false ∧
    parse_quilt_filename "clip_qs10x10a2.0.mkv" = ParseResult.ok 10 10 (mkRat 2 1) false := by
  refine ⟨fun l => ⟨searchQs_complete, searchQs_sound⟩, ?_, ?_, by decide, by decide⟩
  · intro f hf
    unfold parse_quilt_filename
    rw [hf]
  · intro f d1 d2 d3 hf
    constructor
    · intro a hfl
      unfold parse_quilt_filename
      simp [hf, hfl]
    · intro hfl
      unfold parse_quilt_filename
      simp [hf, hfl]

/-- C4 witness: the no-match branch of the amended theorem at `clip.mp4`. -/
theorem parse_quilt_filename_amended_wit :
    parse_quilt_filename "clip.mp4" = ParseResult.ok 5 9 (mkRat 187 100) true :=
  parse_quilt_filename_amended.2.1 "clip.mp4" (by decide)

/-- C5 counterexample: a record providing the six spec-required keys as
bare numbers but no `fringe` key is rejected by the loader: line 288
reads `calib['fringe']` unconditionally, the `KeyError` is caught and
`None` is returned, so the claimed success on fringe-less records fails. -/
theorem load_calibration_cex :
    (["screenW", "screenH", "pitch", "slope", "center", "DPI"].all
      (fun k => (numValue calibSixKeys k).isSome)) = true ∧
    load_calibration calibSixKeys = none := by
  constructor
  · rfl
  · rfl

/-- C5 (amended): the loader succeeds exactly when all SEVEN keys —
`fringe` included, contrary to the spec's "optional" — resolve to
numbers, and the load is all-or-nothing: a returned profile carries
exactly the resolved numbers, never a partially populated record. -/
theorem load_calibration_eq_some {calib : CalibRecord} {prof : CalibrationProfile}
    (h : load_calibration calib = some prof) :
    ∃ sw sh, numValue calib "screenW" = some sw ∧
      numValue calib "screenH" = some sh ∧
      numValue calib "pitch" = some prof.pitch ∧
      numValue calib "slope" = some prof.slope ∧
      numValue calib "center" = some prof.center ∧
      numValue calib "DPI" = some prof.dpi ∧
      numValue calib "fringe" = some prof.fringe ∧
      prof.screenW = truncQ sw ∧ prof.screenH = truncQ sh := by
  unfold load_calibration at h
  rw [Option.bind_eq_some] at h
  obtain ⟨sw, hsw, h⟩ := h
  rw [Option.bind_eq_some] at h
  obtain ⟨sh, hsh, h⟩ := h
  rw [Option.bind_eq_some] at h
  obtain ⟨p, hp, h⟩ := h
  rw [Option.bind_eq_some] at h
  obtain ⟨sl, hsl, h⟩ := h
  rw [Option.bind_eq_some] at h
  obtain ⟨c, hc, h⟩ := h
  rw [Option.bind_eq_some] at h
  obtain ⟨d, hd, h⟩ := h
  rw [Option.map_eq_some'] at h
  obtain ⟨fr, hfr, h⟩ := h
  subst h
  exact ⟨sw, sh, hsw, hsh, hp, hsl, hc, hd, hfr, rfl, rfl⟩

/-- C5 (amended): the loader succeeds exactly when all SEVEN keys —
`fringe` included, contrary to the spec's "optional" — resolve to
numbers, and the load is all-or-nothing: a returned profile carries
exactly the resolved numbers (with `int()` truncation on the screen
dimensions), never a partially populated record. -/
theorem load_calibration_required :
    ∀ calib : CalibRecord,
      ((load_calibration calib).isSome = true ↔
        ∀ k ∈ loaderKeys, (numValue calib k).isSome = true) ∧
      (∀ prof, load_calibration calib = some prof →
        numValue calib "pitch" = some prof.pitch ∧
        numValue calib "slope" = some prof.slope ∧
        numValue calib "center" = some prof.center ∧
        numValue calib "DPI" = some prof.dpi ∧
        numValue calib "fringe" = some prof.fringe ∧
        (∃ sw, numValue calib "screenW" = some sw ∧ prof.screenW = truncQ sw) ∧
        (∃ sh, numValue calib "screenH" = some sh ∧ prof.screenH = truncQ sh)) := by
  intro calib
  constructor
  · constructor
    · intro h
      obtain ⟨prof, hprof⟩ := Option.isSome_iff_exists.mp h
      obtain ⟨sw, sh, hsw, hsh, hp, hsl, hc, hd, hfr, _, _⟩ :=
        load_calibration_eq_some hprof
      intro k hk
      simp only [loaderKeys, List.mem_cons, List.not_mem_nil, or_false] at hk
      rcases hk with rfl | rfl | rfl | rfl | rfl | rfl | rfl <;>
        simp [hsw, hsh, hp, hsl, hc, hd, hfr]
    · intro h
      have hsw := h "screenW" (by simp [loaderKeys])
      have hsh := h "screenH" (by simp [loaderKeys])
      have hp := h "pitch" (by simp [loaderKeys])
      have hsl := h "slope" (by simp [loaderKeys])
      have hc := h "center" (by simp [loaderKeys])
      have hd := h "DPI" (by simp [loaderKeys])
      have hfr := h "fringe" (by simp [loaderKeys])
      obtain ⟨sw, hsw⟩ := Option.isSome_iff_exists.mp hsw
      obtain ⟨sh, hsh⟩ := Option.isSome_iff_exists.mp hsh
      obtain ⟨p, hp⟩ := Option.isSome_iff_exists.mp hp
      obtain ⟨sl, hsl⟩ := Option.isSome_iff_exists.mp hsl
      obtain ⟨c, hc⟩ := Option.isSome_iff_exists.mp hc
      obtain ⟨d, hd⟩ := Option.isSome_iff_exists.mp hd
      obtain ⟨fr, hfr⟩ := Option.isSome_iff_exists.mp hfr
      simp [load_calibration, hsw, hsh, hp, hsl, hc, hd, hfr]
  · intro prof hprof
    obtain ⟨sw, sh, hsw, hsh, hp, hsl, hc, hd, hfr, hw, hh⟩ :=
      load_calibration_eq_some hprof
    exact ⟨hp, hsl, hc, hd, hfr, ⟨sw, hsw, hw⟩, ⟨sh, hsh, hh⟩⟩

/-- C5 witness: the amended success condition applied to the full bare
record (all seven keys resolve, so the load succeeds). -/
theorem load_calibration_required_wit :
    (load_calibration calibBarePitch).isSome = true :=
  (load_calibration_required calibBarePitch).1.mpr (by decide)

/-- C6 counterexample: the two code sites the claim covers do not agree.
At the loader site (`quilt-converter-gui.py`, `get_value`) a bare
`pitch: 49.8` resolves to `49.8`, but at the transform site
(`quilt_converter_gui.py` lines 417-429) the same bare record makes
`calibration_data.get('pitch', {}).get('value', 50.0)` raise
`AttributeError` — it resolves nothing at all — while the wrapped record
resolves to `49.8` there.  So the bare and wrapped shapes do NOT resolve
identically at every cited site. -/
theorem calib_dual_shape_cex :
    numValue calibBarePitch "pitch" = some (mkRat 498 10) ∧
    get_calib_value calibBarePitch "pitch" (mkRat 50 1) = none ∧
    get_calib_value calibWrappedPitch "pitch" (mkRat 50 1) = some (mkRat 498 10) :=
  ⟨rfl, rfl, rfl⟩

/-- C6 (amended): dual-shape resolution holds only in the Calibration
Loader of `quilt-converter-gui.py`: there, for any record and key, a bare
number and the wrapped `{value: number}` object resolve to the same flat
numeric value through `get_value` (line 279), and concretely records with
`pitch: 49.8` and `pitch: {value: 49.8}` load to identical profiles whose
`pitch` is `49.8` (`mkRat 498 10`).  In the `QuiltVideoProcessor` variant
(`quilt_converter_gui.py` lines 417-429) only the wrapped shape resolves:
a bare number raises `AttributeError` on the `.get` chain, and a missing
key silently yields the built-in default instead. -/
theorem calib_dual_shape :
    (∀ (calib : CalibRecord) (k : String) (q : ℚ),
      lookupJ calib k = some (JVal.num q) → numValue calib k = some q) ∧
    (∀ (calib : CalibRecord) (k : String) (q : ℚ),
      lookupJ calib k = some (JVal.obj [("value", JVal.num q)]) →
        numValue calib k = some q) ∧
    load_calibration calibBarePitch = load_calibration calibWrappedPitch ∧
    (∀ prof, load_calibration calibBarePitch = some prof →
      prof.pitch = mkRat 498 10) ∧
    (∀ (calib : CalibRecord) (k : String) (q dflt : ℚ),
      lookupJ calib k = some (JVal.obj [("value", JVal.num q)]) →
        get_calib_value calib k dflt = some q) ∧
    (∀ (calib : CalibRecord) (k : String) (q dflt : ℚ),
      lookupJ calib k = some (JVal.num q) →
        get_calib_value calib k dflt = none) ∧
    (∀ (calib : CalibRecord) (k : String) (dflt : ℚ),
      lookupJ calib k = none → get_calib_value calib k dflt = some dflt) := by
  refine ⟨?_, ?_, rfl, ?_, ?_, ?_, ?_⟩
  · intro calib k q h
    simp [numValue, get_value, h]
  · intro calib k q h
    simp [numValue, get_value, h, lookupJ]
  · intro prof hprof
    obtain ⟨sw, sh, hsw, hsh, hp, _, _, _, _, _, _⟩ :=
      load_calibration_eq_some hprof
    have : numValue calibBarePitch "pitch" = some (mkRat 498 10) := by rfl
    rw [this] at hp
    exact (Option.some.injEq _ _).mp hp.symm
  · intro calib k q dflt h
    simp [get_calib_value, h, lookupJ]
  · intro calib k q dflt h
    simp [get_calib_value, h]
  · intro calib k dflt h
    simp [get_calib_value, h]

/-- C6 witness: the bare-number branch of the loader-side resolution at
the concrete record's `pitch` key. -/
theorem calib_dual_shape_wit :
    numValue calibBarePitch "pitch" = some (mkRat 498 10) :=
  calib_dual_shape.1 calibBarePitch "pitch" (mkRat 498 10) (by rfl)

/-- C3 counterexample: a staged job whose FFmpeg encode fails sends
`("done", False)` and returns (lines 582-584) before the `shutil.rmtree`
of line 588 runs, so on this failure exit path the scratch directory that
was created is never removed. -/
theorem scratch_cleanup_cex :
    (convert_video envEncodeFail).scratchCreated = true ∧
    (convert_video envEncodeFail).doneSuccess = false ∧
    (convert_video envEncodeFail).scratchRemoved = false :=
  ⟨rfl, rfl, rfl⟩

/-- C3 (amended): the scratch directory is removed exactly on the
successful staged exit path — `rmtree` runs only after a successful
encode, so on encoder failure and on any raised error the directory is
left behind, and on the direct path none is created. -/
theorem scratch_removed_iff_success :
    ∀ e : ConvertEnv, (convert_video e).scratchRemoved =
      ((convert_video e).scratchCreated && (convert_video e).doneSuccess) := by
  intro e
  obtain ⟨cal, cap, fc, fr, codec, cvw, enc⟩ := e
  by_cases hforce : (get_codec_settings codec).pixel_format ∈ forceFfmpegFormats <;>
    cases cal <;> cases cap <;> cases cvw <;> cases enc <;>
    cases hfl : frameLoop fc fr 0 <;>
      simp [convert_video, hforce, hfl]

/-- C7: selecting a codec profile with a 4:4:4 / 10-bit pixel format
forces the staged path: the OpenCV `VideoWriter` is never constructed
(lines 515-521), and whenever the job reaches backend selection the
staged FFmpeg backend is used, independently of whether the direct writer
would have opened (`cvWriterOpens` is unconstrained). -/
theorem force_staged_for_444 :
    ∀ e : ConvertEnv,
      (get_codec_settings e.codec).pixel_format ∈ forceFfmpegFormats →
      (convert_video e).cvWriterTried = false ∧
      (e.calibOk = true → e.capOpens = true → (convert_video e).usedFfmpeg = true) := by
  intro e hmem
  obtain ⟨cal, cap, fc, fr, codec, cvw, enc⟩ := e
  simp only at hmem
  cases cal <;> cases cap <;> cases cvw <;> cases enc <;>
    cases hfl : frameLoop fc fr 0 <;>
      simp [convert_video, hmem, hfl]

/-- C7 witness: the staged path is forced for the concrete
`H.264 YUV 4:4:4` job even though its direct writer would open. -/
theorem force_staged_for_444_wit :
    (convert_video envEncodeFail).cvWriterTried = false ∧
    (envEncodeFail.calibOk = true → envEncodeFail.capOpens = true →
      (convert_video envEncodeFail).usedFfmpeg = true) :=
  force_staged_for_444 envEncodeFail (by decide)

/-- C10: when the container reports `frame_count = 0` while at least one
frame is readable, the first per-frame progress computation
`(frame_num / frame_count) * 100` (line 563) divides by zero; the
`ZeroDivisionError` aborts the loop before any progress event is emitted
and the outer handler (line 595) ends the job with `("done", False)` —
failed, not completed. -/
theorem zero_framecount_fails :
    progress_value 1 0 = none ∧
    ∀ e : ConvertEnv, e.calibOk = true → e.capOpens = true →
      e.frameCount = 0 → 1 ≤ e.framesReadable →
      (convert_video e).doneSuccess = false ∧
      (convert_video e).progressEvents = [] := by
  constructor
  · rfl
  · intro e hc hp hfc hfr
    have hfl : frameLoop e.frameCount e.framesReadable 0 = none := by
      rw [hfc]
      obtain ⟨n, hn⟩ : ∃ n, e.framesReadable = n + 1 :=
        ⟨e.framesReadable - 1, by omega⟩
      rw [hn]
      rfl
    unfold convert_video
    rw [if_neg (by simp [hc]), if_neg (by simp [hp]), hfl]
    simp

/-- C10 witness: the zero-frame-count abort at the concrete job. -/
theorem zero_framecount_fails_wit :
    (convert_video envZeroCount).doneSuccess = false ∧
    (convert_video envZeroCount).progressEvents = [] :=
  zero_framecount_fails.2 envZeroCount rfl rfl rfl (by decide)

/-- C9 counterexample: in `quilt-converter-gui.py`, `start_conversion`
has no in-flight guard — two consecutive valid start requests from an
idle instance leave two worker threads converting concurrently, so a
second start is neither rejected nor limited to one active job. -/
theorem start_conversion_cex :
    start_conversion true (start_conversion true 0) = 2 := rfl

/-- C9 (amended): only the `quilt_converter_gui.py` variant enforces the
single-job rule — a second start while `is_converting` leaves the state
unchanged (rejected, not queued), and a start from idle marks the
instance busy with one new thread; the `quilt-converter-gui.py` variant
has no guard and every valid start request spawns one more concurrent
worker thread. -/
theorem single_job_guard :
    (∀ (v : Bool) (s : GuiState), s.isConverting = true →
      start_conversion_gui v s = s) ∧
    (∀ s : GuiState, s.isConverting = false →
      (start_conversion_gui true s).isConverting = true ∧
      (start_conversion_gui true s).activeThreads = s.activeThreads + 1) ∧
    (∀ n : ℕ, start_conversion true n = n + 1) := by
  refine ⟨?_, ?_, fun n => rfl⟩
  · intro v s h
    unfold start_conversion_gui
    rw [h]
    split <;> simp
  · intro s h
    unfold start_conversion_gui
    rw [h]
    simp

/-- C9 witness: the guard of the second variant at a concrete busy state,
and the unguarded spawn of the first variant at one active thread. -/
theorem single_job_guard_wit :
    start_conversion_gui true { isConverting := true, activeThreads := 1 } =
      { isConverting := true, activeThreads := 1 } ∧
    start_conversion true 1 = 2 :=
  ⟨single_job_guard.1 true { isConverting := true, activeThreads := 1 } rfl,
    single_job_guard.2.2 1⟩

theorem frameLoop_eval (fc : ℕ) (hfc : fc ≠ 0) :
    ∀ n k, frameLoop fc n k =
      some ((List.range n).map fun i => (((k + i + 1 : ℕ) : ℚ) / (fc : ℚ)) * 100) := by
  intro n
  induction n with
  | zero =>
    intro k
    rfl
  | succ n ih =>
    intro k
    have hrw : frameLoop fc (n + 1) k =
        match progress_value (k + 1) fc with
        | none => none
        | some p =>
          match frameLoop fc n (k + 1) with
          | none => none
          | some es => some (p :: es) := rfl
    rw [hrw, ih (k + 1)]
    simp only [progress_value, if_neg hfc]
    congr 1
    rw [List.range_succ_eq_map, List.map_cons, List.map_map]
    congr 1
    all_goals norm_num
    all_goals
      intro a ha
      ring

theorem chain_progress (fc : ℕ) (hfc : fc ≠ 0) (n k : ℕ) (hk : k + n = fc) :
    List.Chain' (· ≤ ·)
      (((List.range n).map fun i => (((k + i + 1 : ℕ) : ℚ) / (fc : ℚ)) * 100) ++ [100]) := by
  have hfcq : (0 : ℚ) < (fc : ℚ) := by
    exact_mod_cast Nat.pos_of_ne_zero hfc
  apply List.Pairwise.chain'
  rw [List.pairwise_append]
  refine ⟨?_, by simp, ?_⟩
  · apply List.Pairwise.map _ ?_ (List.pairwise_lt_range n)
    intro a b hab
    have hcast : ((k + a + 1 : ℕ) : ℚ) ≤ ((k + b + 1 : ℕ) : ℚ) :=
      Nat.cast_le.mpr (by omega)
    gcongr
  · intro a ha b hb
    simp only [List.mem_singleton] at hb
    subst hb
    simp only [List.mem_map, List.mem_range] at ha
    obtain ⟨i, hi, rfl⟩ := ha
    have hle : ((k + i + 1 : ℕ) : ℚ) ≤ (fc : ℚ) := Nat.cast_le.mpr (by omega)
    have h100 : (fc : ℚ) / (fc : ℚ) * 100 = 100 := by
      field_simp
    calc ((k + i + 1 : ℕ) : ℚ) / (fc : ℚ) * 100
        ≤ (fc : ℚ) / (fc : ℚ) * 100 := by gcongr
      _ = 100 := h100

theorem convert_video_events_of_done {e : ConvertEnv}
    (hdone : (convert_video e).doneSuccess = true) :
    frameLoop e.frameCount e.framesReadable 0 =
      some ((convert_video e).progressEvents) := by
  obtain ⟨cal, cap, fc, fr, codec, cvw, enc⟩ := e
  by_cases hforce : (get_codec_settings codec).pixel_format ∈ forceFfmpegFormats <;>
    cases cal <;> cases cap <;> cases cvw <;> cases enc <;>
    cases hfl : frameLoop fc fr 0 <;>
      simp_all [convert_video, hforce, hfl]

/-- C8 counterexample: on a job that fails (staged encode failure), the
loop has already emitted 100 and `conversion_complete` then resets the
progress bar to 0 at job END (line 607) — the per-job sequence is
`[0, 100, 0]`: not monotonically non-decreasing, with a reset to 0 that
is not at job start, so the claimed invariant fails for failing jobs. -/
theorem progress_monotone_cex :
    jobProgressTrace envEncodeFail = [0, 100, 0] ∧
    ¬ List.Chain' (· ≤ ·) ([0, 100, 0] : List ℚ) := by
  constructor
  · unfold jobProgressTrace
    have h1 : (convert_video envEncodeFail).progressEvents =
        [((1 : ℕ) : ℚ) / ((1 : ℕ) : ℚ) * 100] := rfl
    have h2 : (convert_video envEncodeFail).doneSuccess = false := rfl
    rw [h1, h2]
    norm_num
  · simp [List.chain'_cons]

/-- C8 (amended): on a SUCCESSFUL job whose reported frame count equals
the number of frames actually read, the per-job progress sequence starts
at 0, is monotonically non-decreasing, and its final value is exactly
100; on a failing job `conversion_complete` resets the percentage to 0 at
job end, so the monotonicity and final-value guarantees hold only for
successful jobs. -/
theorem progress_monotone_on_success :
    ∀ e : ConvertEnv, e.frameCount = e.framesReadable →
      (convert_video e).doneSuccess = true →
      (jobProgressTrace e).head? = some 0 ∧
      List.Chain' (· ≤ ·) (jobProgressTrace e) ∧
      (jobProgressTrace e).getLast? = some 100 := by
  intro e hcount hdone
  have hfl := convert_video_events_of_done hdone
  refine ⟨rfl, ?_, ?_⟩
  · by_cases hfc : e.frameCount = 0
    · have hfr : e.framesReadable = 0 := by omega
      rw [hfc, hfr] at hfl
      have hz : frameLoop 0 0 0 = some [] := rfl
      rw [hz] at hfl
      have hev : (convert_video e).progressEvents = [] :=
        ((Option.some.injEq _ _).mp hfl).symm
      unfold jobProgressTrace
      rw [hev, hdone]
      simp [List.chain'_cons]
    · rw [frameLoop_eval e.frameCount hfc e.framesReadable 0] at hfl
      have hev : (convert_video e).progressEvents =
          (List.range e.framesReadable).map
            (fun i => (((0 + i + 1 : ℕ) : ℚ) / (e.frameCount : ℚ)) * 100) :=
        ((Option.some.injEq _ _).mp hfl).symm
      unfold jobProgressTrace
      rw [hev, hdone]
      rw [if_pos rfl, List.chain'_cons']
      constructor
      · intro b hb
        have hbmem : b ∈ ((List.range e.framesReadable).map
            (fun i => (((0 + i + 1 : ℕ) : ℚ) / (e.frameCount : ℚ)) * 100)) ++
              [(100 : ℚ)] := List.mem_of_mem_head? hb
        rw [List.mem_append] at hbmem
        rcases hbmem with hm | hm
        · simp only [List.mem_map, List.mem_range] at hm
          obtain ⟨i, _, rfl⟩ := hm
          positivity
        · simp only [List.mem_singleton] at hm
          subst hm
          norm_num
      · exact chain_progress e.frameCount hfc e.framesReadable 0 (by omega)
  · unfold jobProgressTrace
    rw [hdone, if_pos rfl, ← List.cons_append, List.getLast?_concat]

/-- C8 witness: the success-path invariants at the concrete two-frame
direct job. -/
theorem progress_monotone_on_success_wit :
    (jobProgressTrace envDirectOk).head? = some 0 ∧
    List.Chain' (· ≤ ·) (jobProgressTrace envDirectOk) ∧
    (jobProgressTrace envDirectOk).getLast? = some 100 :=
  progress_monotone_on_success envDirectOk rfl rfl
